import Mathlib

/-!
Verification of `evlist` (src/evlist/evlist.py): a calendar-file event
lister.  The pure formatting core is embedded directly from the source.
The external `ical` library collaborators (ICS parsing, recurrence
expansion, the timeline range query) and the CLI layer are modelled from
the spec where the doc comments say so.  Python `datetime.date` /
`datetime.datetime` values are embedded as plain structures; machine
validity invariants (month in 1..12, hour < 24, ...) appear as
hypotheses on theorems rather than as structure fields.
-/

namespace Evlist

/-- A Python `datetime.date`: year, month, day. -/
structure Date where
  year : Nat
  month : Nat
  day : Nat
  deriving DecidableEq, Repr

/-- A Python `datetime.datetime`, kept at the minute granularity that the
program's formatting (`%H:%M`) and window comparisons need. -/
structure DateTime where
  date : Date
  hour : Nat
  minute : Nat
  deriving DecidableEq, Repr

/-- The duck-typed `datetime.datetime | datetime.date` bound of an event,
made explicit as a tagged union. -/
inductive Bound where
  | date (d : Date) : Bound
  | datetime (dt : DateTime) : Bound
  deriving DecidableEq, Repr

/-- Embeds `start.date() if isinstance(start, datetime.datetime) else start`:
normalize a bound to its date component. -/
def Bound.toDate : Bound → Date
  | .date d => d
  | .datetime dt => dt.date

/-- Embeds the `isinstance(b, datetime.datetime)` test. -/
def Bound.isDatetime : Bound → Bool
  | .date _ => false
  | .datetime _ => true

/-- Zero-padded two-digit decimal rendering, as `strftime` does for the
`%H`, `%M`, `%m`, `%d` directives (their values are below 100 for every
valid Python date/datetime). -/
def pad2 (n : Nat) : String :=
  if n < 10 then "0" ++ toString n else toString n

/-- Embeds `format_time`: `t.strftime("%H:%M")`. -/
def format_time (t : DateTime) : String :=
  pad2 t.hour ++ ":" ++ pad2 t.minute

/-- Embeds `format_timespan`: parenthesized clock-time span. -/
def format_timespan (start fin : DateTime) : String :=
  "(" ++ format_time start ++ " - " ++ format_time fin ++ ")"

/-- Embeds `format_date`: `d.strftime("%m/%d")`. -/
def format_date (d : Date) : String :=
  pad2 d.month ++ "/" ++ pad2 d.day

/-- Days in the years strictly before year `y`, per the
proleptic-Gregorian formula CPython's `datetime` module uses. -/
def daysBeforeYear (y : Nat) : Nat :=
  (y - 1) * 365 + (y - 1) / 4 - (y - 1) / 100 + (y - 1) / 400

/-- Gregorian leap-year test. -/
def isLeap (y : Nat) : Bool :=
  y % 4 == 0 && (y % 100 != 0 || y % 400 == 0)

/-- Days in the months strictly before month `m` of year `y`. -/
def daysBeforeMonth (y m : Nat) : Nat :=
  let cum := [0, 31, 59, 90, 120, 151, 181, 212, 243, 273, 304, 334]
  cum.getD (m - 1) 0 + (if 2 < m && isLeap y then 1 else 0)

/-- Embeds CPython's `date.toordinal()`: day count from 0001-01-01,
which has ordinal 1. -/
def Date.toOrdinal (d : Date) : Nat :=
  daysBeforeYear d.year + daysBeforeMonth d.year d.month + d.day

/-- Embeds `end_date - start_date` on Python dates, in whole days (an
`Int`, since the end may precede the start). -/
def dateSub (a b : Date) : Int :=
  (a.toOrdinal : Int) - (b.toOrdinal : Int)

/-- Embeds `format_date_range`: renders `"MM/DD"`, or `"MM/DD - MM/DD"`
when the end bound exists and its date exceeds the start date by more
than one day (`end_date - start_date > timedelta(days=1)`).  `end_date`
is falsy exactly when `end` is `None` (a `date` object is always
truthy). -/
def format_date_range (start : Bound) (stop : Option Bound) : String :=
  let start_date := start.toDate
  let start_date_fmt := format_date start_date
  match stop with
  | none => start_date_fmt
  | some e =>
      let end_date := e.toDate
      if dateSub end_date start_date > 1 then
        start_date_fmt ++ " - " ++ format_date end_date
      else
        start_date_fmt

/-- An `ical` `Event` as the program reads it: start/end bounds, summary,
optional location (`event.location` is `None` or a string; Python's
truthiness test treats `None` and `""` alike). -/
structure Event where
  dtstart : Bound
  dtend : Option Bound
  summary : String
  location : Option String
  deriving DecidableEq, Repr

/-- Embeds `text_event_formatter`: date-range label with trailing colon,
the summary, and — when both bounds are `datetime` instances — the
parenthesized time span, all space-joined. -/
def text_event_formatter (event : Event) : String :=
  let parts := [format_date_range event.dtstart event.dtend ++ ":", event.summary]
  let parts :=
    match event.dtstart, event.dtend with
    | .datetime s, some (.datetime e) => parts ++ [format_timespan s e]
    | _, _ => parts
  String.intercalate " " parts

/-- Embeds `text_event_formatter_w_location`: the plain formatter's
output, with a `Location` line appended when `event.location` is
truthy. -/
def text_event_formatter_w_location (event : Event) : String :=
  let event_fmt := text_event_formatter event
  match event.location with
  | some l => if l ≠ "" then event_fmt ++ "\n    Location: " ++ l else event_fmt
  | none => event_fmt

/-- The condition guarding the time span in `text_event_formatter`: both
bounds are `datetime` instances (a timed, not all-day, event). -/
def Event.isTimed (ev : Event) : Bool :=
  ev.dtstart.isDatetime && (match ev.dtend with | some b => b.isDatetime | none => false)

/-- The same-kind invariant on an event's bounds (spec section 3): both
date-only or both date-time; vacuous when the end is absent. -/
def Event.sameKindBounds (ev : Event) : Prop :=
  match ev.dtend with
  | some b => ev.dtstart.isDatetime = b.isDatetime
  | none => True

/-- An instant on the timeline, in minutes since the proleptic-Gregorian
epoch: the comparison key for window queries. -/
def DateTime.minutes (t : DateTime) : Int :=
  (t.date.toOrdinal : Int) * 1440 + t.hour * 60 + t.minute

/-- Modelled from the spec: the external `ical` timeline compares
occurrence bounds as instants; a date-only bound stands for midnight at
that date. -/
def Bound.minutes : Bound → Int
  | .date d => (d.toOrdinal : Int) * 1440
  | .datetime t => t.minutes

/-- Start instant of an occurrence. -/
def Event.startMinutes (ev : Event) : Int := ev.dtstart.minutes

/-- End instant of an occurrence; a missing end stands for a zero-length
occurrence. -/
def Event.endMinutes (ev : Event) : Int :=
  match ev.dtend with
  | some b => b.minutes
  | none => ev.startMinutes

/-- Modelled from the spec: a `Calendar` is a collection of `Event`
occurrences; recurrence expansion is the external library's job (out of
scope), so a calendar is represented by the concrete occurrence list its
timeline enumerates, in timeline order. -/
structure Calendar where
  occurrences : List Event
  deriving DecidableEq, Repr

/-- Modelled from the spec: the external range query
`cal.timeline.included(start, end)` — the occurrences lying entirely
within the queried window, per the method's name and spec section 8 (an
occurrence is listed only when its start falls inside the window). -/
def Calendar.timeline_included (cal : Calendar) (lo hi : Int) : List Event :=
  cal.occurrences.filter fun ev => decide (lo ≤ ev.startMinutes) && decide (ev.endMinutes ≤ hi)

/-- Embeds `events_thru`: the timeline query over `[now, now + delta]`.
Since the embedding is pure, `datetime.now()` is passed explicitly as
`now`; `delta` is in minutes (`timedelta(days=n)` is `n * 1440`). -/
def events_thru (cal : Calendar) (delta : Int) (now : Int) : List Event :=
  cal.timeline_included now (now + delta)

/-- Embeds `format_upcoming_events`.  The filename argument is replaced
by the file's parsed content: `calendars_from_file` (external ICS
parsing) is modelled from the spec as yielding the list of calendars
found in the file. -/
def format_upcoming_events (file : List Calendar) (delta : Int) (now : Int)
    (event_formatter : Event → String) : List String :=
  (file.map fun cal => (events_thru cal delta now).map event_formatter).flatten

/-- Stated from the claim's words, for comparison with the code: an
occurrence intersects the window `[now, now + delta]` when the two
intervals overlap. -/
def occurrenceIntersects (now delta : Int) (ev : Event) : Prop :=
  ev.startMinutes ≤ now + delta ∧ now ≤ ev.endMinutes

/-- Modelled from the spec: CPython `int(s)` on an ASCII decimal literal
— optional surrounding spaces and sign, then one or more digits;
anything else raises `ValueError`, the `Except.error` branch here. -/
def pyInt (s : String) : Except String Int :=
  let cs := ((s.data.dropWhile (· == ' ')).reverse.dropWhile (· == ' ')).reverse
  let signAndDigits : Int × List Char :=
    match cs with
    | '-' :: rest => (-1, rest)
    | '+' :: rest => (1, rest)
    | rest => (1, rest)
  let sign := signAndDigits.1
  let ds := signAndDigits.2
  if ds.isEmpty then Except.error "invalid literal for int() with base 10"
  else if ds.all (·.isDigit) then
    Except.ok (sign * (ds.foldl (fun n c => n * 10 + (c.toNat - 48)) 0 : Nat))
  else Except.error "invalid literal for int() with base 10"

/-- Embeds `main` after argument parsing, with the CLI modelled from the
spec: `days` is the raw `--days` value when supplied (argparse stores a
string) and `none` when omitted (argparse then supplies the integer
default 45); `file` is the parsed content of the selected calendar file;
`now` the sampled clock.  `int(args.days)` raising terminates the
process before any output: the `Except.error` branch. -/
def main_run (verbose : Bool) (days : Option String) (file : List Calendar) (now : Int) :
    Except String String :=
  let daysInt : Except String Int :=
    match days with
    | none => Except.ok 45
    | some s => pyInt s
  match daysInt with
  | .error e => Except.error e
  | .ok n =>
      Except.ok (String.intercalate "\n" (format_upcoming_events file (n * 1440) now
        (if verbose then text_event_formatter_w_location else text_event_formatter)))

/-- Sample date used by concrete witnesses. -/
def julyFirst : Date := ⟨2023, 7, 1⟩

/-- Sample clock instant used by concrete witnesses: 2023-07-01 11:00. -/
def sampleNow : Int := (julyFirst.toOrdinal : Int) * 1440 + 11 * 60

/-- Sample timed occurrence lying entirely inside the sample window. -/
def meetingEvent : Event :=
  ⟨.datetime ⟨julyFirst, 11, 30⟩, some (.datetime ⟨julyFirst, 12, 0⟩), "Meeting", none⟩

/-- Sample occurrence that straddles the sample window's start: it runs
10:00 to 12:00 while the window opens at 11:00. -/
def straddlerEvent : Event :=
  ⟨.datetime ⟨julyFirst, 10, 0⟩, some (.datetime ⟨julyFirst, 12, 0⟩), "Straddler", none⟩

/-- Sample one-calendar file content. -/
def sampleCalendar : Calendar := ⟨[meetingEvent]⟩

end Evlist

namespace Evlist

theorem intercalate_pair (a b : String) : String.intercalate " " [a, b] = a ++ " " ++ b := by
  simp [String.intercalate, String.intercalate.go]

theorem intercalate_triple (a b c : String) :
    String.intercalate " " [a, b, c] = a ++ " " ++ b ++ " " ++ c := by
  simp [String.intercalate, String.intercalate.go, String.append_assoc]

theorem pad2_data_fin : ∀ n : Fin 100,
    (pad2 n.val).data = [Char.ofNat (48 + n.val / 10), Char.ofNat (48 + n.val % 10)] := by
  decide

theorem pad2_data (n : Nat) (h : n < 100) :
    (pad2 n).data = [Char.ofNat (48 + n / 10), Char.ofNat (48 + n % 10)] :=
  pad2_data_fin ⟨n, h⟩

theorem pad2_length (n : Nat) (h : n < 100) : (pad2 n).length = 2 := by
  simp [String.length, pad2_data n h]

/-- C2: for every start bound and optional end bound (date-time bounds
normalized to their date component), `format_date_range` returns only
the start date when the end is absent or exceeds the start date by at
most one day — so a next-day end is not shown as a range — and returns
the `"MM/DD - MM/DD"` range exactly when the end date exceeds the start
date by more than one day. -/
theorem format_date_range_threshold : ∀ (start : Bound) (stop : Option Bound),
    (stop = none → format_date_range start stop = format_date start.toDate)
    ∧ (∀ b, stop = some b → dateSub b.toDate start.toDate ≤ 1 →
        format_date_range start stop = format_date start.toDate)
    ∧ (∀ b, stop = some b → dateSub b.toDate start.toDate > 1 →
        format_date_range start stop
          = format_date start.toDate ++ " - " ++ format_date b.toDate) := by
  intro start stop
  refine ⟨fun h => by subst h; rfl, ?_, ?_⟩
  · rintro b rfl hle
    have hnot : ¬ dateSub b.toDate start.toDate > 1 := by omega
    simp [format_date_range, hnot]
  · rintro b rfl hgt
    simp [format_date_range, hgt]

/-- Witness for C2, the spec's own example: a next-day end
(2023-07-01 to 2023-07-02) renders as the single day `"07/01"`. -/
theorem format_date_range_threshold_witness :
    format_date_range (.date ⟨2023, 7, 1⟩) (some (.date ⟨2023, 7, 2⟩)) = "07/01" := by
  have h := (format_date_range_threshold (.date ⟨2023, 7, 1⟩)
      (some (.date ⟨2023, 7, 2⟩))).2.1 (.date ⟨2023, 7, 2⟩) rfl (by decide)
  rw [h]; rfl

/-- C9: when the normalized end date is on or before the normalized
start date (including a reversed span), `format_date_range` returns only
the start date and never a range; the embedding is total, so no error is
raised. -/
theorem format_date_range_reversed_span : ∀ (start b : Bound),
    dateSub b.toDate start.toDate ≤ 0 →
    format_date_range start (some b) = format_date start.toDate := by
  intro start b h
  have hnot : ¬ dateSub b.toDate start.toDate > 1 := by omega
  simp [format_date_range, hnot]

/-- Witness for C9: a reversed span (end 2023-07-03 before start
2023-07-05) still renders as the single start date. -/
theorem format_date_range_reversed_span_witness :
    format_date_range (.date ⟨2023, 7, 5⟩) (some (.date ⟨2023, 7, 3⟩)) = "07/05" := by
  have h := format_date_range_reversed_span (.date ⟨2023, 7, 5⟩) (.date ⟨2023, 7, 3⟩)
    (by decide)
  rw [h]; rfl

/-- C5: for every date-time with a valid clock time, `format_time`
renders the zero-padded 24-hour `"HH:MM"` form: five characters, the
two decimal digits of the hour, a colon, and the two decimal digits of
the minute. -/
theorem format_time_zero_padded : ∀ t : DateTime, t.hour < 24 → t.minute < 60 →
    (format_time t).data =
      [Char.ofNat (48 + t.hour / 10), Char.ofNat (48 + t.hour % 10), ':',
       Char.ofNat (48 + t.minute / 10), Char.ofNat (48 + t.minute % 10)] := by
  intro t hh hm
  simp [format_time, String.data_append, pad2_data t.hour (by omega),
    pad2_data t.minute (by omega)]

/-- Witness for C5, the spec's example: 14:05 renders as `"14:05"`. -/
theorem format_time_zero_padded_witness :
    (format_time ⟨⟨2023, 7, 1⟩, 14, 5⟩).data = ['1', '4', ':', '0', '5'] := by
  have h := format_time_zero_padded ⟨⟨2023, 7, 1⟩, 14, 5⟩ (by decide) (by decide)
  rw [h]; rfl

/-- C4: `text_event_formatter_w_location` is the plain formatter's
output with a `"    Location: <location>"` second line appended exactly
when the event's location is a non-empty string; an absent or empty
location leaves the plain output unchanged. -/
theorem text_event_formatter_w_location_shape : ∀ ev : Event,
    (∀ l, ev.location = some l → l ≠ "" →
      text_event_formatter_w_location ev
        = text_event_formatter ev ++ "\n    Location: " ++ l)
    ∧ (ev.location = none ∨ ev.location = some "" →
      text_event_formatter_w_location ev = text_event_formatter ev) := by
  intro ev
  constructor
  · intro l hl hne
    simp [text_event_formatter_w_location, hl, hne]
  · rintro (h | h) <;> simp [text_event_formatter_w_location, h]

/-- Witness for C4: the `Hall A` location is appended on its own
indented line. -/
theorem text_event_formatter_w_location_shape_witness :
    text_event_formatter_w_location
        ⟨.date ⟨2023, 7, 4⟩, some (.date ⟨2023, 7, 4⟩), "Holiday", some "Hall A"⟩
      = text_event_formatter
          ⟨.date ⟨2023, 7, 4⟩, some (.date ⟨2023, 7, 4⟩), "Holiday", some "Hall A"⟩
        ++ "\n    Location: " ++ "Hall A" :=
  (text_event_formatter_w_location_shape _).1 "Hall A" rfl (by decide)

/-- C3: `text_event_formatter` space-joins the date-range label with its
trailing colon, the summary, and — exactly when both bounds are
date-times — the parenthesized `"(HH:MM - HH:MM)"` time span; all-day
events get no time span. -/
theorem text_event_formatter_shape : ∀ ev : Event,
    (∀ s e, ev.dtstart = .datetime s → ev.dtend = some (.datetime e) →
      text_event_formatter ev
        = format_date_range ev.dtstart ev.dtend ++ ": " ++ ev.summary
          ++ " (" ++ format_time s ++ " - " ++ format_time e ++ ")")
    ∧ (ev.isTimed = false →
      text_event_formatter ev
        = format_date_range ev.dtstart ev.dtend ++ ": " ++ ev.summary) := by
  intro ev
  obtain ⟨ds, de, sm, loc⟩ := ev
  constructor
  · intro s e hs he
    simp only at hs he
    subst hs; subst he
    apply String.ext
    simp [text_event_formatter, intercalate_triple, format_timespan, String.data_append]
  · intro hnt
    apply String.ext
    rcases ds with d | t
    · rcases de with _ | b
      · simp [text_event_formatter, intercalate_pair, String.data_append]
      · rcases b with d' | t' <;>
          simp [text_event_formatter, intercalate_pair, String.data_append]
    · rcases de with _ | b
      · simp [text_event_formatter, intercalate_pair, String.data_append]
      · rcases b with d' | t'
        · simp [text_event_formatter, intercalate_pair, String.data_append]
        · simp [Event.isTimed, Bound.isDatetime] at hnt

/-- Witness for C3, the spec's example: a timed `Meeting` from 10:00 to
11:00 on 07/01 renders with its time span. -/
theorem text_event_formatter_shape_witness :
    text_event_formatter ⟨.datetime ⟨⟨2023, 7, 1⟩, 10, 0⟩,
        some (.datetime ⟨⟨2023, 7, 1⟩, 11, 0⟩), "Meeting", none⟩
      = "07/01: Meeting (10:00 - 11:00)" := by
  have h := (text_event_formatter_shape ⟨.datetime ⟨⟨2023, 7, 1⟩, 10, 0⟩,
      some (.datetime ⟨⟨2023, 7, 1⟩, 11, 0⟩), "Meeting", none⟩).1
    ⟨⟨2023, 7, 1⟩, 10, 0⟩ ⟨⟨2023, 7, 1⟩, 11, 0⟩ rfl rfl
  rw [h]; rfl

/-- C10: on mixed-kind bounds — one date-only, one date-time, violating
the stated same-kind invariant — `text_event_formatter` still produces
the label-plus-summary line: both bounds are normalized to their dates
for the date-range label and the time span is omitted. -/
theorem text_event_formatter_mixed_kind_bounds : ∀ (ev : Event) (b : Bound),
    ev.dtend = some b → ev.dtstart.isDatetime ≠ b.isDatetime →
    text_event_formatter ev
      = format_date_range (.date ev.dtstart.toDate) (some (.date b.toDate))
        ++ ": " ++ ev.summary := by
  intro ev b hb hmix
  obtain ⟨ds, de, sm, loc⟩ := ev
  simp only at hb hmix ⊢
  subst hb
  rcases ds with d | t <;> rcases b with d' | t'
  · simp [Bound.isDatetime] at hmix
  · apply String.ext
    simp [text_event_formatter, intercalate_pair, String.data_append,
      format_date_range, Bound.toDate]
  · apply String.ext
    simp [text_event_formatter, intercalate_pair, String.data_append,
      format_date_range, Bound.toDate]
  · simp [Bound.isDatetime] at hmix

/-- Witness for C10: a date-only start with a date-time end still
renders label and summary, date-normalized and without a time span. -/
theorem text_event_formatter_mixed_kind_bounds_witness :
    text_event_formatter ⟨.date ⟨2023, 7, 1⟩,
        some (.datetime ⟨⟨2023, 7, 9⟩, 11, 0⟩), "Mixed", none⟩
      = format_date_range (.date ⟨2023, 7, 1⟩) (some (.date ⟨2023, 7, 9⟩))
        ++ ": " ++ "Mixed" :=
  text_event_formatter_mixed_kind_bounds
    ⟨.date ⟨2023, 7, 1⟩, some (.datetime ⟨⟨2023, 7, 9⟩, 11, 0⟩), "Mixed", none⟩
    (.datetime ⟨⟨2023, 7, 9⟩, 11, 0⟩) rfl (by decide)

/-- C6: on every event whose bounds satisfy the same-kind invariant,
both formatters evaluate to an actual (non-empty) string — the
embedding is total, so neither kind of bound provokes an error — and
the verbose variant only ever extends the plain one. -/
theorem formatter_total_on_same_kind_bounds : ∀ ev : Event, ev.sameKindBounds →
    0 < (text_event_formatter ev).length
    ∧ ∃ tail, text_event_formatter_w_location ev = text_event_formatter ev ++ tail := by
  intro ev hsk
  constructor
  · obtain ⟨ds, de, sm, loc⟩ := ev
    have hc : (":" : String).length = 1 := rfl
    have hsp : (" " : String).length = 1 := rfl
    rcases ds with d | t
    · rcases de with _ | b
      · rw [text_event_formatter]
        simp only [intercalate_pair, String.length_append, hc, hsp]
        omega
      · rcases b with d' | t' <;>
          · rw [text_event_formatter]
            simp only [intercalate_pair, String.length_append, hc, hsp]
            omega
    · rcases de with _ | b
      · rw [text_event_formatter]
        simp only [intercalate_pair, String.length_append, hc, hsp]
        omega
      · rcases b with d' | t'
        · rw [text_event_formatter]
          simp only [intercalate_pair, String.length_append, hc, hsp]
          omega
        · rw [text_event_formatter]
          simp only [List.cons_append, List.nil_append, intercalate_triple,
            String.length_append, hc, hsp]
          omega
  · rcases hl : ev.location with _ | l
    · exact ⟨"", by simp [text_event_formatter_w_location, hl]⟩
    · by_cases hne : l = ""
      · subst hne
        exact ⟨"", by simp [text_event_formatter_w_location, hl]⟩
      · exact ⟨"\n    Location: " ++ l, by
          simp [text_event_formatter_w_location, hl, hne, String.append_assoc]⟩

/-- Witness for C6: the all-day `Holiday` event satisfies the invariant
and yields a non-empty line, extended (here trivially) by the verbose
variant. -/
theorem formatter_total_on_same_kind_bounds_witness :
    0 < (text_event_formatter
        ⟨.date ⟨2023, 7, 4⟩, some (.date ⟨2023, 7, 4⟩), "Holiday", none⟩).length
    ∧ ∃ tail, text_event_formatter_w_location
        ⟨.date ⟨2023, 7, 4⟩, some (.date ⟨2023, 7, 4⟩), "Holiday", none⟩
      = text_event_formatter
          ⟨.date ⟨2023, 7, 4⟩, some (.date ⟨2023, 7, 4⟩), "Holiday", none⟩ ++ tail :=
  formatter_total_on_same_kind_bounds
    ⟨.date ⟨2023, 7, 4⟩, some (.date ⟨2023, 7, 4⟩), "Holiday", none⟩ (by constructor)

/-- C7: both formatters are deterministic pure functions of the one
event: the plain formatter's output depends only on the bounds and the
summary (in particular not on the location), the verbose variant's only
on the event value, and no entity is mutated (the embedding is
functional). -/
theorem formatters_deterministic_and_pure : ∀ e₁ e₂ : Event,
    (e₁.dtstart = e₂.dtstart → e₁.dtend = e₂.dtend → e₁.summary = e₂.summary →
      text_event_formatter e₁ = text_event_formatter e₂)
    ∧ (e₁ = e₂ →
      text_event_formatter_w_location e₁ = text_event_formatter_w_location e₂) := by
  intro e₁ e₂
  constructor
  · obtain ⟨ds, de, sm, loc⟩ := e₁
    obtain ⟨ds', de', sm', loc'⟩ := e₂
    intro h1 h2 h3
    simp only at h1 h2 h3
    subst h1; subst h2; subst h3
    rfl
  · intro h
    rw [h]

/-- Witness for C7: two copies of the `Holiday` event that differ only
in location get the same plain-formatter line. -/
theorem formatters_deterministic_and_pure_witness :
    text_event_formatter
        ⟨.date ⟨2023, 7, 4⟩, some (.date ⟨2023, 7, 4⟩), "Holiday", some "Hall A"⟩
      = text_event_formatter
          ⟨.date ⟨2023, 7, 4⟩, some (.date ⟨2023, 7, 4⟩), "Holiday", none⟩ :=
  (formatters_deterministic_and_pure _ _).1 rfl rfl rfl

/-- C1 (counterexample): the claim promises a line for every occurrence
intersecting the window, but an occurrence running 10:00 to 12:00
intersects a window opening at 11:00 and still yields no line — the
timeline query keeps only occurrences lying entirely inside the
window. -/
theorem format_upcoming_events_misses_straddling_occurrence :
    occurrenceIntersects sampleNow 1440 straddlerEvent
    ∧ format_upcoming_events [⟨[straddlerEvent]⟩] 1440 sampleNow text_event_formatter
      = [] := by
  constructor
  · constructor <;> decide
  · decide

/-- C1 (amended): for every parsed calendar file, window and formatter,
`format_upcoming_events` returns one formatted line, in order, per
occurrence of every event in every calendar whose occurrence falls
entirely within `[now, now + delta]`; in particular (for well-formed
occurrences, start not after end) an occurrence is included only if its
start falls within the window, and occurrences entirely outside the
window are excluded. -/
theorem format_upcoming_events_lists_fully_included_occurrences :
    ∀ (file : List Calendar) (delta now : Int) (fmt : Event → String),
    (∀ cal ∈ file, ∀ ev ∈ cal.occurrences, ev.startMinutes ≤ ev.endMinutes) →
    format_upcoming_events file delta now fmt
        = ((file.map fun cal => cal.occurrences.filter fun ev =>
            decide (now ≤ ev.startMinutes) && decide (ev.endMinutes ≤ now + delta)).flatten).map
          fmt
      ∧ (∀ cal ∈ file, ∀ ev ∈ events_thru cal delta now,
          now ≤ ev.startMinutes ∧ ev.startMinutes ≤ now + delta)
      ∧ (∀ cal ∈ file, ∀ ev ∈ cal.occurrences,
          ev.endMinutes < now ∨ now + delta < ev.startMinutes →
            ev ∉ events_thru cal delta now) := by
  intro file delta now fmt hwf
  refine ⟨?_, ?_, ?_⟩
  · simp [format_upcoming_events, events_thru, Calendar.timeline_included,
      List.map_flatten, Function.comp_def]
  · intro cal hcal ev hev
    have hwf' := hwf cal hcal ev (List.mem_of_mem_filter hev)
    simp only [events_thru, Calendar.timeline_included, List.mem_filter,
      Bool.and_eq_true, decide_eq_true_eq] at hev
    omega
  · intro cal hcal ev hmem hout hin
    have hwf' := hwf cal hcal ev hmem
    replace hin : ev ∈ cal.occurrences.filter
        (fun e => decide (now ≤ e.startMinutes) && decide (e.endMinutes ≤ now + delta)) := hin
    rw [List.mem_filter] at hin
    simp only [Bool.and_eq_true, decide_eq_true_eq] at hin
    omega

/-- Witness for the amended C1: the `Meeting` occurrence listed by the
sample query indeed starts inside the sample window. -/
theorem format_upcoming_events_lists_fully_included_occurrences_witness :
    sampleNow ≤ meetingEvent.startMinutes
    ∧ meetingEvent.startMinutes ≤ sampleNow + 1440 :=
  (format_upcoming_events_lists_fully_included_occurrences [sampleCalendar] 1440 sampleNow
      text_event_formatter (by decide)).2.1
    sampleCalendar (by decide) meetingEvent (by decide)

/-- C8: an unparseable `--days` value makes the integer conversion
raise, so the run ends in the error branch with no partial listing,
while an omitted `--days` falls back to the 45-day default window. -/
theorem main_run_days_error_handling :
    ∀ (v : Bool) (days : Option String) (file : List Calendar) (now : Int),
    (∀ s e, days = some s → pyInt s = Except.error e →
        main_run v days file now = Except.error e)
    ∧ (days = none →
        main_run v days file now = Except.ok (String.intercalate "\n"
          (format_upcoming_events file (45 * 1440) now
            (if v then text_event_formatter_w_location else text_event_formatter)))) := by
  intro v days file now
  constructor
  · rintro s e rfl herr
    simp [main_run, herr]
  · rintro rfl
    simp [main_run]

/-- Witness for C8: `--days forty` fails the conversion and produces an
error and no listing, while an omitted `--days` on an empty file
succeeds with empty output. -/
theorem main_run_days_error_handling_witness :
    main_run false (some "forty") [] 0
        = Except.error "invalid literal for int() with base 10"
    ∧ main_run false none [] 0 = Except.ok "" := by
  constructor
  · exact (main_run_days_error_handling false (some "forty") [] 0).1 "forty"
      "invalid literal for int() with base 10" rfl rfl
  · have h := (main_run_days_error_handling false none [] 0).2 rfl
    rw [h]; rfl

end Evlist
